import Mathlib

/-!
Verification of the marathon scraping / cleaning pipeline.

Shallow embedding of the URL generator (`marathons.py`) and of the
data-cleaning and imputation helpers (`utils/data_processing_utils.py`).
DataFrame rows are modelled as lists or finite maps of optional rational
values (`none` plays the role of a pandas null), and each Python helper is
translated into an executable Lean function.
-/

namespace Marathon

/-! ### URL generation (`MarathonBase.prepare_res_urls`, `ChicagoMarathon.prepare_res_urls`)

The Python loop runs `page` from 1 to `max(men_pages, women_pages)` and
appends a formatted URL to the men list when `page <= men_pages` and to the
women list when `page <= women_pages`.  `mkUrl` abstracts one iteration of
`url.format(...)` applied to a gender code and a page number. -/

def res_urls_go (mkUrl : String → ℕ → String) (g1 g2 : String)
    (menPages womenPages : ℕ) : List ℕ → List String × List String
  | [] => ([], [])
  | p :: rest =>
    let r := res_urls_go mkUrl g1 g2 menPages womenPages rest
    ((if p ≤ menPages then [mkUrl g1 p] else []) ++ r.1,
     (if p ≤ womenPages then [mkUrl g2 p] else []) ++ r.2)

/-- `MarathonBase.prepare_res_urls` with the page counts already converted by
`int(...)`: the slot arguments of `url.format(year, str(page), gender, num_results)`
are supplied through the abstract formatter `fmt`. -/
def prepare_res_urls (fmt : String → String → String → String → String)
    (year : String) (menPages womenPages : ℕ) (g1 g2 numResults : String) :
    List String × List String :=
  res_urls_go (fun g p => fmt year (toString p) g numResults) g1 g2
    menPages womenPages ((List.range (max menPages womenPages)).map (· + 1))

/-- The `flat_list=True` return: `list(chain(*res_urls))`. -/
def prepare_res_urls_flat (fmt : String → String → String → String → String)
    (year : String) (menPages womenPages : ℕ) (g1 g2 numResults : String) :
    List String :=
  let r := prepare_res_urls fmt year menPages womenPages g1 g2 numResults
  r.1 ++ r.2

/-- `ChicagoMarathon.prepare_res_urls`: identical loop, but the formatter also
receives the event id as a fifth slot. -/
def chicago_prepare_res_urls
    (fmt : String → String → String → String → String → String)
    (year : String) (menPages womenPages : ℕ) (eventId g1 g2 numResults : String) :
    List String × List String :=
  res_urls_go (fun g p => fmt year (toString p) g numResults eventId) g1 g2
    menPages womenPages ((List.range (max menPages womenPages)).map (· + 1))

def chicago_prepare_res_urls_flat
    (fmt : String → String → String → String → String → String)
    (year : String) (menPages womenPages : ℕ) (eventId g1 g2 numResults : String) :
    List String :=
  let r := chicago_prepare_res_urls fmt year menPages womenPages eventId g1 g2 numResults
  r.1 ++ r.2

/-- Digit-string parsing, standing in for Python `int(...)` on the
non-negative page-count strings. -/
def parse_nat (s : String) : Option ℕ :=
  if s.data ≠ [] ∧ s.data.all Char.isDigit then
    some (s.data.foldl (fun n c => 10 * n + (c.toNat - 48)) 0)
  else none

/-- The argument-validation wrapper: `prepare_res_urls` raises unless `pages`
has exactly two entries, then converts both with `int(...)`.  A raised
exception (or a non-numeric page string) is modelled as `none`. -/
def prepare_res_urls_checked (fmt : String → String → String → String → String)
    (year : String) (pages : List String) (g1 g2 numResults : String) :
    Option (List String × List String) :=
  match pages with
  | [p1, p2] =>
    match parse_nat p1, parse_nat p2 with
    | some m, some w => some (prepare_res_urls fmt year m w g1 g2 numResults)
    | _, _ => none
  | _ => none

theorem res_urls_go_eq_filter (mkUrl : String → ℕ → String) (g1 g2 : String)
    (m w : ℕ) (pages : List ℕ) :
    res_urls_go mkUrl g1 g2 m w pages =
      ((pages.filter (fun p => p ≤ m)).map (mkUrl g1),
       (pages.filter (fun p => p ≤ w)).map (mkUrl g2)) := by
  induction pages with
  | nil => rfl
  | cons p rest ih =>
    simp only [res_urls_go, ih, List.filter_cons, Prod.mk.injEq]
    constructor <;> · split_ifs <;> (simp_all; try omega)

theorem filter_le_range_map (n m : ℕ) (h : m ≤ n) :
    (((List.range n).map (· + 1)).filter (fun p => p ≤ m)) =
      (List.range m).map (· + 1) := by
  induction n with
  | zero => interval_cases m; rfl
  | succ n ih =>
    rw [List.range_succ]
    rcases Nat.lt_or_ge m (n + 1) with hm | hm
    · have hmn : m ≤ n := Nat.lt_succ_iff.mp hm
      simp only [List.map_append, List.filter_append, ih hmn, List.map_cons,
        List.map_nil, List.filter_cons]
      have : ¬ (n + 1 ≤ m) := by omega
      simp [this]
    · have hm1 : m = n + 1 := le_antisymm h hm
      subst hm1
      rw [List.range_succ, List.map_append, List.filter_append]
      have h1 : ((List.range n).map (· + 1)).filter (fun p => p ≤ n + 1) =
          (List.range n).map (· + 1) := by
        apply List.filter_eq_self.mpr
        intro a ha
        simp only [List.mem_map, List.mem_range] at ha
        obtain ⟨b, hb, rfl⟩ := ha
        simp only [decide_eq_true_eq]
        omega
      rw [h1]
      simp

theorem prepare_res_urls_eq (fmt : String → String → String → String → String)
    (year : String) (m w : ℕ) (g1 g2 nR : String) :
    prepare_res_urls fmt year m w g1 g2 nR =
      ((List.range m).map (fun p => fmt year (toString (p + 1)) g1 nR),
       (List.range w).map (fun p => fmt year (toString (p + 1)) g2 nR)) := by
  unfold prepare_res_urls
  rw [res_urls_go_eq_filter,
    filter_le_range_map (max m w) m (le_max_left m w),
    filter_le_range_map (max m w) w (le_max_right m w)]
  simp [List.map_map, Function.comp]

theorem chicago_prepare_res_urls_eq
    (fmt : String → String → String → String → String → String)
    (year : String) (m w : ℕ) (eventId g1 g2 nR : String) :
    chicago_prepare_res_urls fmt year m w eventId g1 g2 nR =
      ((List.range m).map (fun p => fmt year (toString (p + 1)) g1 nR eventId),
       (List.range w).map (fun p => fmt year (toString (p + 1)) g2 nR eventId)) := by
  unfold chicago_prepare_res_urls
  rw [res_urls_go_eq_filter,
    filter_le_range_map (max m w) m (le_max_left m w),
    filter_le_range_map (max m w) w (le_max_right m w)]
  simp [List.map_map, Function.comp]

/-- C3: for every formatter, year, gender pair and page size, `prepare_res_urls`
(both the `MarathonBase` and the `ChicagoMarathon` variant) yields the men URLs
for pages `1..men_pages`, the women URLs for pages `1..women_pages`, hence
exactly `men_pages + women_pages` URLs in total, and the flattened form is the
men list followed by the women list. -/
theorem C3_prepare_res_urls_counts_and_order
    (fmt : String → String → String → String → String)
    (cfmt : String → String → String → String → String → String)
    (year : String) (m w : ℕ) (eventId g1 g2 nR : String) :
    ((prepare_res_urls fmt year m w g1 g2 nR).1 =
        (List.range m).map (fun p => fmt year (toString (p + 1)) g1 nR) ∧
      (prepare_res_urls fmt year m w g1 g2 nR).2 =
        (List.range w).map (fun p => fmt year (toString (p + 1)) g2 nR) ∧
      (prepare_res_urls fmt year m w g1 g2 nR).1.length +
        (prepare_res_urls fmt year m w g1 g2 nR).2.length = m + w ∧
      prepare_res_urls_flat fmt year m w g1 g2 nR =
        (prepare_res_urls fmt year m w g1 g2 nR).1 ++
          (prepare_res_urls fmt year m w g1 g2 nR).2) ∧
    ((chicago_prepare_res_urls cfmt year m w eventId g1 g2 nR).1 =
        (List.range m).map (fun p => cfmt year (toString (p + 1)) g1 nR eventId) ∧
      (chicago_prepare_res_urls cfmt year m w eventId g1 g2 nR).2 =
        (List.range w).map (fun p => cfmt year (toString (p + 1)) g2 nR eventId) ∧
      (chicago_prepare_res_urls cfmt year m w eventId g1 g2 nR).1.length +
        (chicago_prepare_res_urls cfmt year m w eventId g1 g2 nR).2.length = m + w ∧
      chicago_prepare_res_urls_flat cfmt year m w eventId g1 g2 nR =
        (chicago_prepare_res_urls cfmt year m w eventId g1 g2 nR).1 ++
          (chicago_prepare_res_urls cfmt year m w eventId g1 g2 nR).2) := by
  rw [prepare_res_urls_eq, chicago_prepare_res_urls_eq]
  refine ⟨⟨rfl, rfl, by simp, ?_⟩, ⟨rfl, rfl, by simp, ?_⟩⟩
  · unfold prepare_res_urls_flat
    rw [prepare_res_urls_eq]
  · unfold chicago_prepare_res_urls_flat
    rw [chicago_prepare_res_urls_eq]

/-- C8: `prepare_res_urls` with `pages=["0","0"]` generates no URL for either
gender: both per-gender lists are empty, and so is the flattened list. -/
theorem C8_prepare_res_urls_zero_pages
    (fmt : String → String → String → String → String)
    (year g1 g2 nR : String) :
    prepare_res_urls_checked fmt year ["0", "0"] g1 g2 nR = some ([], []) ∧
    prepare_res_urls_flat fmt year 0 0 g1 g2 nR = [] := by
  exact ⟨rfl, rfl⟩

/-! ### `convert_to_sec` (time/pace strings to seconds)

`pd.to_timedelta(x, errors="coerce")` parses `"h:mm"` as hours:minutes and
`"h:mm:ss"` as hours:minutes:seconds, anything unparsable becoming `NaT`
(modelled as `none`); `.astype("timedelta64[s]").dt.seconds` then takes the
seconds component of the timedelta, i.e. the total seconds modulo one day. -/

def parse_digit_chars (cs : List Char) : Option ℕ :=
  if cs ≠ [] ∧ cs.all Char.isDigit then
    some (cs.foldl (fun n c => 10 * n + (c.toNat - 48)) 0)
  else none

def split_colon : List Char → List (List Char)
  | [] => [[]]
  | c :: rest =>
    let r := split_colon rest
    if c = ':' then [] :: r
    else
      match r with
      | [] => [[c]]
      | h :: t => (c :: h) :: t

/-- Total seconds of a timedelta given its parsed colon-separated fields. -/
def timedelta_of_fields : List (Option ℕ) → Option ℕ
  | [some h, some m] => some (h * 3600 + m * 60)
  | [some h, some m, some s] => some (h * 3600 + m * 60 + s)
  | _ => none

/-- `pd.to_timedelta(s).astype("timedelta64[s]").dt.seconds`: the seconds
component, i.e. the total modulo 86400. -/
def to_timedelta_dt_seconds (s : String) : Option ℕ :=
  (timedelta_of_fields ((split_colon s.data).map parse_digit_chars)).map
    (fun total => total % 86400)

/-- The time half of `convert_to_sec`: the `k_*_time` columns are converted
directly. -/
def convert_time_to_sec (s : String) : Option ℕ :=
  to_timedelta_dt_seconds s

/-- The pace half of `convert_to_sec`: a `"00:"` prefix is added exactly when
the pace string has 5 characters (`lambda x: "00:" + x if len(x) == 5 else x`),
then the result is converted like a time. -/
def convert_pace_to_sec (s : String) : Option ℕ :=
  to_timedelta_dt_seconds (if s.length = 5 then "00:" ++ s else s)

/-- C2 (corrected): `"hh:mm:ss"` converts to total seconds (mod one day) and
`"01:02:03"` to 3723; a pace string is prefixed with `"00:"` exactly when it
has 5 characters, so the 5-character pace `"04:30"` converts to 270 seconds,
while `"4:30"` (4 characters) is not prefixed and is parsed by
`pd.to_timedelta` as hours:minutes, converting to 16200 seconds. -/
theorem C2_convert_to_sec_amended :
    (∀ h m s : ℕ,
      (timedelta_of_fields [some h, some m, some s]).map (fun t => t % 86400) =
        some ((h * 3600 + m * 60 + s) % 86400)) ∧
    convert_time_to_sec "01:02:03" = some 3723 ∧
    (∀ s : String, s.length = 5 →
      convert_pace_to_sec s = to_timedelta_dt_seconds ("00:" ++ s)) ∧
    (∀ s : String, s.length ≠ 5 →
      convert_pace_to_sec s = to_timedelta_dt_seconds s) ∧
    convert_pace_to_sec "04:30" = some 270 ∧
    convert_pace_to_sec "4:30" = some 16200 := by
  refine ⟨fun h m s => rfl, rfl, fun s hs => ?_, fun s hs => ?_, rfl, rfl⟩
  · simp [convert_pace_to_sec, hs]
  · simp [convert_pace_to_sec, hs]

/-- Witness for `C2_convert_to_sec_amended` at the 5-character pace `"04:30"`. -/
theorem C2_convert_to_sec_amended_witness :
    ("04:30").length = 5 ∧
    convert_pace_to_sec "04:30" = to_timedelta_dt_seconds ("00:" ++ "04:30") :=
  ⟨rfl, C2_convert_to_sec_amended.2.2.1 "04:30" rfl⟩

/-- C2 counterexample: the pace `"4:30"` has 4 characters, not 5, so it is not
treated as `"00:04:30"`: it converts to 16200 seconds (4 hours 30 minutes),
not 270. -/
theorem C2_counterexample :
    ("4:30").length ≠ 5 ∧
    convert_pace_to_sec "4:30" = some 16200 ∧
    convert_pace_to_sec "4:30" ≠ some 270 := by
  refine ⟨by decide, rfl, by decide⟩

/-! ### `valid_splits_time` (post-imputation split-consistency check)

A row is modelled as the ordered list of its split checkpoints with their
(already numeric) cumulative time and pace.  `.round(0)` is numpy rounding:
round half to even. -/

/-- numpy `round` to 0 decimals: nearest integer, ties to even. -/
def npRound (q : ℚ) : ℤ :=
  let n : ℤ := ⌊q⌋
  let r : ℚ := q - (n : ℚ)
  if r < 1 / 2 then n
  else if 1 / 2 < r then n + 1
  else if n % 2 = 0 then n else n + 1

theorem npRound_eq_of (q : ℚ) (n : ℤ) (h1 : (n : ℚ) ≤ q) (h2 : q < (n : ℚ) + 1 / 2) :
    npRound q = n := by
  have hf : ⌊q⌋ = n := by
    rw [Int.floor_eq_iff]
    refine ⟨h1, by linarith⟩
  unfold npRound
  rw [hf]
  have hr : q - (n : ℚ) < 1 / 2 := by linarith
  rw [if_pos hr]

theorem npRound_eq_add_one_of (q : ℚ) (n : ℤ)
    (h1 : (n : ℚ) + 1 / 2 < q) (h2 : q < (n : ℚ) + 1) :
    npRound q = n + 1 := by
  have hf : ⌊q⌋ = n := by
    rw [Int.floor_eq_iff]
    constructor
    · linarith
    · linarith
  unfold npRound
  rw [hf]
  have hr1 : ¬ (q - (n : ℚ) < 1 / 2) := by push_neg; linarith
  have hr2 : 1 / 2 < q - (n : ℚ) := by linarith
  rw [if_neg hr1, if_pos hr2]

/-- `distance_dict = {"k_25_pace": 3.9025, "k_half_pace": 1.0975,
"k_finish_pace": 2.195}` with `.get(col, 5)` default. -/
def distance_dict (paceCol : String) : ℚ :=
  if paceCol = "k_25_pace" then 3.9025
  else if paceCol = "k_half_pace" then 1.0975
  else if paceCol = "k_finish_pace" then 2.195
  else 5

structure Checkpoint where
  key : String
  time : ℚ
  pace : ℚ

/-- First invalidity condition for the adjacent pair (`prev`, `next`):
`(non_cumulative.round(0) < diff.round(0) - 5) | (non_cumulative.round(0) > diff.round(0) + 5)`
where `non_cumulative = pace[next] * distance_dict.get(pace_col[next], 5)` and
`diff = time[next] - time[prev]`. -/
def pair_tolerance_invalid (prev next : Checkpoint) : Bool :=
  let nonCum := npRound (next.pace * distance_dict (next.key ++ "_pace"))
  let diff := npRound (next.time - prev.time)
  decide (nonCum < diff - 5) || decide (diff + 5 < nonCum)

/-- Second invalidity condition:
`df[split_time].round(0) >= df[next_split_time].round(0)`. -/
def pair_order_invalid (prev next : Checkpoint) : Bool :=
  decide (npRound next.time ≤ npRound prev.time)

def pair_invalid (prev next : Checkpoint) : Bool :=
  pair_tolerance_invalid prev next || pair_order_invalid prev next

/-- The pair is accepted (the row index is not added to `invalid_index` for
this adjacent pair). -/
def pair_accepted (prev next : Checkpoint) : Bool :=
  !(pair_invalid prev next)

/-- `valid_splits_time` restricted to one row: the boolean it contributes to
the returned flag, iterating over adjacent pairs of split time columns in
column order. -/
def valid_splits_time_row (cps : List Checkpoint) : Bool :=
  (cps.zip cps.tail).all (fun p => !(pair_invalid p.1 p.2))

/-- C1 (amended): an adjacent pair is accepted iff the rounded non-cumulative
time implied by the later checkpoint's pace over its per-checkpoint segment
distance (3.9025 km for `k_25`, 1.0975 km for `k_half`, 2.195 km for
`k_finish`, 5 km otherwise) is within ±5 seconds of the rounded observed
cumulative delta, and in addition the rounded earlier time is strictly below
the rounded later time.  With `k_20_time=4800`, `k_25_time=5700`,
`k_25_pace=180` the implied non-cumulative time is `180 × 3.9025 = 702.45 →
702`, not 900, so the pair fails; a delta of 950 also fails, and a row whose
delta matches `702` passes. -/
theorem C1_valid_splits_time_amended :
    (∀ prev next : Checkpoint,
      pair_accepted prev next = true ↔
        (|npRound (next.pace * distance_dict (next.key ++ "_pace")) -
            npRound (next.time - prev.time)| ≤ 5 ∧
          npRound prev.time < npRound next.time)) ∧
    distance_dict "k_25_pace" = 3.9025 ∧
    distance_dict "k_half_pace" = 1.0975 ∧
    distance_dict "k_finish_pace" = 2.195 ∧
    distance_dict "k_20_pace" = 5 ∧
    npRound ((180 : ℚ) * distance_dict "k_25_pace") = 702 ∧
    valid_splits_time_row
      [⟨"k_20", 4800, 240⟩, ⟨"k_25", 5502, 180⟩] = true ∧
    valid_splits_time_row
      [⟨"k_20", 4800, 240⟩, ⟨"k_25", 5750, 180⟩] = false := by
  have hk : ("k_25" ++ "_pace" : String) = "k_25_pace" := rfl
  have hd : distance_dict "k_25_pace" = 3.9025 := rfl
  have h702 : npRound ((180 : ℚ) * 3.9025) = 702 :=
    npRound_eq_of _ 702 (by norm_num) (by norm_num)
  have hdiffA : npRound ((5502 : ℚ) - 4800) = 702 :=
    npRound_eq_of _ 702 (by norm_num) (by norm_num)
  have hdiffB : npRound ((5750 : ℚ) - 4800) = 950 :=
    npRound_eq_of _ 950 (by norm_num) (by norm_num)
  have ht20 : npRound ((4800 : ℚ)) = 4800 :=
    npRound_eq_of _ 4800 (by norm_num) (by norm_num)
  have htA : npRound ((5502 : ℚ)) = 5502 :=
    npRound_eq_of _ 5502 (by norm_num) (by norm_num)
  have htB : npRound ((5750 : ℚ)) = 5750 :=
    npRound_eq_of _ 5750 (by norm_num) (by norm_num)
  refine ⟨fun prev next => ?_, rfl, rfl, rfl, rfl, by rw [hd]; exact h702,
    ?_, ?_⟩
  · unfold pair_accepted pair_invalid pair_tolerance_invalid pair_order_invalid
    simp only [Bool.not_eq_true', Bool.or_eq_false_iff, decide_eq_false_iff_not,
      not_lt, not_le, abs_le]
    omega
  · simp [valid_splits_time_row, pair_invalid, pair_tolerance_invalid,
      pair_order_invalid, hk, hd, h702, hdiffA, ht20, htA]
  · simp [valid_splits_time_row, pair_invalid, pair_tolerance_invalid,
      pair_order_invalid, hk, hd, h702, hdiffB, ht20, htB]

/-- C1 counterexample: the spec's "passing" example — `k_20_time=4800`,
`k_25_time=5700`, `k_25_pace=180` — is rejected by `valid_splits_time`: the
code uses segment distance 3.9025 for `k_25`, so the implied non-cumulative
time is 702, which differs from the observed delta 900 by more than 5. -/
theorem C1_counterexample :
    valid_splits_time_row [⟨"k_20", 4800, 240⟩, ⟨"k_25", 5700, 180⟩] = false ∧
    pair_accepted ⟨"k_20", 4800, 240⟩ ⟨"k_25", 5700, 180⟩ = false ∧
    npRound ((5700 : ℚ) - 4800) = 900 ∧
    npRound ((180 : ℚ) * distance_dict ("k_25" ++ "_pace")) = 702 := by
  have hk : ("k_25" ++ "_pace" : String) = "k_25_pace" := rfl
  have hd : distance_dict "k_25_pace" = 3.9025 := rfl
  have h702 : npRound ((180 : ℚ) * 3.9025) = 702 :=
    npRound_eq_of _ 702 (by norm_num) (by norm_num)
  have hdiff : npRound ((5700 : ℚ) - 4800) = 900 :=
    npRound_eq_of _ 900 (by norm_num) (by norm_num)
  have ht20 : npRound ((4800 : ℚ)) = 4800 :=
    npRound_eq_of _ 4800 (by norm_num) (by norm_num)
  have ht25 : npRound ((5700 : ℚ)) = 5700 :=
    npRound_eq_of _ 5700 (by norm_num) (by norm_num)
  refine ⟨?_, ?_, hdiff, by rw [hk, hd]; exact h702⟩
  · simp [valid_splits_time_row, pair_invalid, pair_tolerance_invalid,
      pair_order_invalid, hk, hd, h702, hdiff, ht20, ht25]
  · simp [pair_accepted, pair_invalid, pair_tolerance_invalid,
      pair_order_invalid, hk, hd, h702, hdiff, ht20, ht25]

/-! ### Age-category canonicalization (`get_age_cat` and the cleaners'
literal category-merging `Series.replace` calls) -/

def canonical_age_cats : List String :=
  ["18-39", "40-44", "45-49", "50-54", "55-59", "60-64", "65-69", "70+"]

/-- `get_age_cat(age)`: the Python function returns a bucket string for ages
matching a bucket, and returns the age itself (an `int`, not a string)
otherwise — hence the sum type. -/
def get_age_cat (age : ℤ) : String ⊕ ℤ :=
  if 18 ≤ age ∧ age ≤ 39 then Sum.inl "18-39"
  else if 40 ≤ age ∧ age ≤ 44 then Sum.inl "40-44"
  else if 45 ≤ age ∧ age ≤ 49 then Sum.inl "45-49"
  else if 50 ≤ age ∧ age ≤ 54 then Sum.inl "50-54"
  else if 55 ≤ age ∧ age ≤ 59 then Sum.inl "55-59"
  else if 60 ≤ age ∧ age ≤ 64 then Sum.inl "60-64"
  else if 65 ≤ age ∧ age ≤ 69 then Sum.inl "65-69"
  else if 70 ≤ age then Sum.inl "70+"
  else Sum.inr age

def is_canonical_age_cat : String ⊕ ℤ → Bool
  | Sum.inl s => canonical_age_cats.contains s
  | Sum.inr _ => false

/-- `Series.replace(src_list, tgt)`: values in `src_list` become `tgt`, all
other values pass through unchanged. -/
def replace_values (src : List String) (tgt : String) (s : String) : String :=
  if s ∈ src then tgt else s

/-- `london_cleaner` step 8:
`df["age_cat"].replace(["70-74", "75-79", "80-84", "80+", "85+"], "70+")`. -/
def london_age_replace : String → String :=
  replace_values ["70-74", "75-79", "80-84", "80+", "85+"] "70+"

/-- `chicago_cleaner` steps 11.1–11.2 (and identically `houston_cleaner`
steps 8.2–8.3): replace `["20-24", "25-29", "30-34", "35-39"]` by `"18-39"`,
then `["70-74", "75-79", "80+"]` by `"70+"`. -/
def chicago_age_replace (s : String) : String :=
  replace_values ["70-74", "75-79", "80+"] "70+"
    (replace_values ["20-24", "25-29", "30-34", "35-39"] "18-39" s)

/-- C7 (amended): `get_age_cat` maps every age of at least 18 into the
canonical 8-bucket set, but returns the age itself — outside the canonical
set — for ages below 18; the cleaners' literal category-merging replacements
are idempotent, map the listed categories to canonical values, and pass every
other value through unchanged. -/
theorem C7_age_cat_amended :
    (∀ a : ℤ, 18 ≤ a → is_canonical_age_cat (get_age_cat a) = true) ∧
    (∀ a : ℤ, a < 18 → get_age_cat a = Sum.inr a) ∧
    (∀ s, london_age_replace (london_age_replace s) = london_age_replace s) ∧
    (∀ s, chicago_age_replace (chicago_age_replace s) = chicago_age_replace s) ∧
    (∀ s ∈ (["70-74", "75-79", "80-84", "80+", "85+"] : List String),
      london_age_replace s = "70+") ∧
    (∀ s ∉ (["70-74", "75-79", "80-84", "80+", "85+"] : List String),
      london_age_replace s = s) ∧
    (∀ s ∈ (["20-24", "25-29", "30-34", "35-39"] : List String),
      chicago_age_replace s = "18-39") ∧
    (∀ s ∈ (["70-74", "75-79", "80+"] : List String),
      chicago_age_replace s = "70+") := by
  refine ⟨?_, ?_, ?_, ?_, ?_, ?_, ?_, ?_⟩
  · intro a h
    unfold get_age_cat
    split_ifs <;> first | rfl | omega
  · intro a h
    unfold get_age_cat
    split_ifs <;> first | rfl | omega
  · intro s
    by_cases h : s ∈ (["70-74", "75-79", "80-84", "80+", "85+"] : List String) <;>
      simp [london_age_replace, replace_values, h]
  · intro s
    by_cases h1 : s ∈ (["20-24", "25-29", "30-34", "35-39"] : List String) <;>
      by_cases h2 : s ∈ (["70-74", "75-79", "80+"] : List String) <;>
      simp_all [chicago_age_replace, replace_values]
  · intro s hs
    fin_cases hs <;> rfl
  · intro s hs
    simp [london_age_replace, replace_values, hs]
  · intro s hs
    fin_cases hs <;> rfl
  · intro s hs
    fin_cases hs <;> rfl

/-- Witness for `C7_age_cat_amended` at concrete ages and category strings. -/
theorem C7_age_cat_amended_witness :
    is_canonical_age_cat (get_age_cat 25) = true ∧
    get_age_cat 10 = Sum.inr 10 ∧
    london_age_replace (london_age_replace "80+") = london_age_replace "80+" ∧
    chicago_age_replace (chicago_age_replace "20-24") = chicago_age_replace "20-24" ∧
    london_age_replace "80+" = "70+" ∧
    london_age_replace "18-39" = "18-39" ∧
    chicago_age_replace "25-29" = "18-39" ∧
    chicago_age_replace "80+" = "70+" :=
  ⟨C7_age_cat_amended.1 25 (by decide), C7_age_cat_amended.2.1 10 (by decide),
   C7_age_cat_amended.2.2.1 "80+", C7_age_cat_amended.2.2.2.1 "20-24",
   C7_age_cat_amended.2.2.2.2.1 "80+" (by decide),
   C7_age_cat_amended.2.2.2.2.2.1 "18-39" (by decide),
   C7_age_cat_amended.2.2.2.2.2.2.1 "25-29" (by decide),
   C7_age_cat_amended.2.2.2.2.2.2.2 "80+" (by decide)⟩

/-- C7 counterexample: canonicalization is not total onto the canonical set —
`get_age_cat(17)` returns the age `17` itself, which is not a member of the
canonical bucket set. -/
theorem C7_counterexample :
    get_age_cat 17 = Sum.inr 17 ∧
    is_canonical_age_cat (get_age_cat 17) = false := by
  exact ⟨rfl, rfl⟩

/-! ### `valid_df` (post-cleaning validation)

`valid_df` first `assert`s that the set of `age_cat` values equals the
canonical 8-bucket set (an `AssertionError` is modelled as `Except.error`) —
note that pandas `Series.unique()` includes `NaN`, so a null `age_cat` also
trips the assertion.  It then returns `True` iff the non-null counts
(`Series.count()`) of the four mandatory columns are all equal, printing a
diagnostic and returning `False` otherwise. -/

structure CleanRow where
  age_cat : Option String
  gender : Option String
  race_state : Option String
  last_split : Option String

/-- `set(df["age_cat"].unique().tolist()) == {canonical buckets}`: every value
is a non-null canonical bucket and every canonical bucket occurs. -/
def age_cat_values_ok (rows : List CleanRow) : Bool :=
  (rows.all fun r =>
    match r.age_cat with
    | some v => canonical_age_cats.contains v
    | none => false) &&
  (canonical_age_cats.all fun c => rows.any fun r => r.age_cat = some c)

/-- `Series.count()`: the number of non-null entries of a column. -/
def col_count (f : CleanRow → Option String) (rows : List CleanRow) : ℕ :=
  (rows.filterMap f).length

def valid_df (rows : List CleanRow) : Except String Bool :=
  if age_cat_values_ok rows then
    if col_count (fun r => r.age_cat) rows = col_count (fun r => r.gender) rows ∧
        col_count (fun r => r.gender) rows = col_count (fun r => r.race_state) rows ∧
        col_count (fun r => r.race_state) rows = col_count (fun r => r.last_split) rows
    then Except.ok true
    else Except.ok false
  else Except.error "The age_cat column must only have the canonical values"

/-- All four mandatory columns are populated in this row. -/
def full_row (r : CleanRow) : Prop :=
  r.age_cat.isSome = true ∧ r.gender.isSome = true ∧
  r.race_state.isSome = true ∧ r.last_split.isSome = true

theorem col_count_eq_iff (f : CleanRow → Option String)
    (rows : List CleanRow) :
    col_count f rows = rows.length ↔ ∀ r ∈ rows, (f r).isSome = true := by
  unfold col_count
  induction rows with
  | nil => simp
  | cons r rest ih =>
    rcases hr : f r with _ | v
    · simp only [List.filterMap_cons, hr, List.length_cons]
      constructor
      · intro h
        have := List.length_filterMap_le f rest
        omega
      · intro h
        have := h r (by simp)
        rw [hr] at this
        simp at this
    · simp only [List.filterMap_cons, hr, List.length_cons]
      rw [Nat.add_right_cancel_iff, ih]
      constructor
      · intro h x hx
        rcases List.mem_cons.mp hx with rfl | hx
        · rw [hr]; rfl
        · exact h x hx
      · intro h x hx
        exact h x (List.mem_cons_of_mem _ hx)

theorem age_cat_values_ok_all_some (rows : List CleanRow)
    (h : age_cat_values_ok rows = true) :
    ∀ r ∈ rows, r.age_cat.isSome = true := by
  intro r hr
  have h1 := (Bool.and_eq_true _ _).mp h |>.1
  rw [List.all_eq_true] at h1
  have := h1 r hr
  rcases hc : r.age_cat with _ | v
  · rw [hc] at this; simp at this
  · rfl

/-- C5: `valid_df` returns `True` exactly when the `age_cat` value set equals
the canonical 8-bucket set (which forces `age_cat` to be null-free) and the
`gender`, `race_state`, `last_split` columns are also fully populated; on an
`age_cat` mismatch it raises, and otherwise, on a violation, it reports and
returns `False` instead of passing the data through. -/
theorem C5_valid_df_spec (rows : List CleanRow) :
    (valid_df rows = Except.ok true ↔
      (age_cat_values_ok rows = true ∧ ∀ r ∈ rows, full_row r)) ∧
    ((∃ e, valid_df rows = Except.error e) ↔ age_cat_values_ok rows = false) ∧
    (valid_df rows = Except.ok false ↔
      (age_cat_values_ok rows = true ∧ ¬ ∀ r ∈ rows, full_row r)) := by
  by_cases hok : age_cat_values_ok rows = true
  · have hage := age_cat_values_ok_all_some rows hok
    have ha : col_count (fun r => r.age_cat) rows = rows.length :=
      (col_count_eq_iff _ rows).mpr hage
    have hcond :
        (col_count (fun r => r.age_cat) rows = col_count (fun r => r.gender) rows ∧
          col_count (fun r => r.gender) rows = col_count (fun r => r.race_state) rows ∧
          col_count (fun r => r.race_state) rows = col_count (fun r => r.last_split) rows) ↔
        ∀ r ∈ rows, full_row r := by
      constructor
      · rintro ⟨h1, h2, h3⟩
        have hg : ∀ r ∈ rows, r.gender.isSome = true :=
          (col_count_eq_iff (fun r => r.gender) rows).mp (by omega)
        have hs : ∀ r ∈ rows, r.race_state.isSome = true :=
          (col_count_eq_iff (fun r => r.race_state) rows).mp (by omega)
        have hl : ∀ r ∈ rows, r.last_split.isSome = true :=
          (col_count_eq_iff (fun r => r.last_split) rows).mp (by omega)
        exact fun r hr => ⟨hage r hr, hg r hr, hs r hr, hl r hr⟩
      · intro h
        have hg : col_count (fun r => r.gender) rows = rows.length :=
          (col_count_eq_iff _ rows).mpr (fun r hr => (h r hr).2.1)
        have hs : col_count (fun r => r.race_state) rows = rows.length :=
          (col_count_eq_iff _ rows).mpr (fun r hr => (h r hr).2.2.1)
        have hl : col_count (fun r => r.last_split) rows = rows.length :=
          (col_count_eq_iff _ rows).mpr (fun r hr => (h r hr).2.2.2)
        omega
    unfold valid_df
    rw [if_pos hok]
    by_cases hc : (col_count (fun r => r.age_cat) rows = col_count (fun r => r.gender) rows ∧
        col_count (fun r => r.gender) rows = col_count (fun r => r.race_state) rows ∧
        col_count (fun r => r.race_state) rows = col_count (fun r => r.last_split) rows)
    · rw [if_pos hc]
      refine ⟨?_, ?_, ?_⟩
      · constructor
        · intro _; exact ⟨hok, hcond.mp hc⟩
        · intro _; rfl
      · constructor
        · rintro ⟨e, he⟩; cases he
        · intro h; rw [hok] at h; exact Bool.noConfusion h
      · constructor
        · intro h; cases h
        · rintro ⟨-, hnot⟩; exact absurd (hcond.mp hc) hnot
    · rw [if_neg hc]
      refine ⟨?_, ?_, ?_⟩
      · constructor
        · intro h; cases h
        · rintro ⟨-, hfull⟩; exact absurd (hcond.mpr hfull) hc
      · constructor
        · rintro ⟨e, he⟩; cases he
        · intro h; rw [hok] at h; exact Bool.noConfusion h
      · constructor
        · intro _; exact ⟨hok, fun hfull => hc (hcond.mpr hfull)⟩
        · intro _; rfl
  · have hok' : age_cat_values_ok rows = false := by
      rcases Bool.eq_false_or_eq_true (age_cat_values_ok rows) with h | h
      · exact absurd h hok
      · exact h
    unfold valid_df
    rw [if_neg hok]
    refine ⟨?_, ?_, ?_⟩
    · constructor
      · intro h; cases h
      · rintro ⟨h, -⟩; exact absurd h hok
    · constructor
      · intro _; exact hok'
      · intro _; exact ⟨_, rfl⟩
    · constructor
      · intro h; cases h
      · rintro ⟨h, -⟩; exact absurd h hok

/-- A concrete fully-populated table covering all eight canonical buckets. -/
def sample_clean_rows : List CleanRow :=
  [⟨some "18-39", some "M", some "Finished", some "finish"⟩,
   ⟨some "40-44", some "M", some "Finished", some "finish"⟩,
   ⟨some "45-49", some "M", some "Finished", some "finish"⟩,
   ⟨some "50-54", some "W", some "Finished", some "finish"⟩,
   ⟨some "55-59", some "W", some "Started", some "40k"⟩,
   ⟨some "60-64", some "W", some "Started", some "30k"⟩,
   ⟨some "65-69", some "M", some "Started", some "25k"⟩,
   ⟨some "70+", some "W", some "Started", some "20k"⟩]

/-- Witness for `C5_valid_df_spec`: on the sample table the validation
accepts. -/
theorem C5_valid_df_spec_witness :
    valid_df sample_clean_rows = Except.ok true :=
  (C5_valid_df_spec sample_clean_rows).1.mpr
    ⟨by decide, fun r hr => by fin_cases hr <;> exact ⟨rfl, rfl, rfl, rfl⟩⟩

/-! ### `last_split` / `race_state` derivation

`hamburg_cleaner`, `stockholm_cleaner` and `chicago_cleaner` (step 7) compute
`df["last_split"] = df.iloc[:, cols.str.contains("time")].idxmax(axis=1)` and
`df["race_state"] = np.where(last_split == "k_finish_time", "Finished", "Started")`.
At this point the time columns are already `Int32`, so a row is a list of
`(column name, optional integer time)` pairs in column order.  pandas
`idxmax` returns the name of the first column attaining the maximum of the
non-null values, and `NaN` (here `none`) for an all-null row. -/

def idxmax (cols : List (String × Option ℤ)) : Option String :=
  ((cols.filterMap (fun c => c.2)).max?).bind
    (fun m => (cols.find? (fun c => c.2 = some m)).map (fun c => c.1))

/-- Step 7 of the hamburg/stockholm/chicago cleaners: `np.where` on the
freshly computed `last_split` (a `NaN` `idxmax` compares unequal, giving
`"Started"`). -/
def derived_race_state (timeCols : List (String × Option ℤ)) : String :=
  if idxmax timeCols = some "k_finish_time" then "Finished" else "Started"

/-- `houston_cleaner` steps 9.1–9.2: rows whose source `race_state` is in
`{"Other", "DQ - No Reason Was Given", "DQ - SWITCH from HALF to MARA"}` are
dropped (`none`), the values `{"DNF", "DQ - Over 6h", "DQ - missing split"}`
are replaced by `"Started"`, and any other source value — `"Finished"`
included — passes through unchanged. -/
def houston_race_state (s : String) : Option String :=
  if s ∈ ["Other", "DQ - No Reason Was Given", "DQ - SWITCH from HALF to MARA"] then
    none
  else if s ∈ ["DNF", "DQ - Over 6h", "DQ - missing split"] then some "Started"
  else some s

theorem int_max?_eq_some_iff (l : List ℤ) (m : ℤ) :
    l.max? = some m ↔ m ∈ l ∧ ∀ b ∈ l, b ≤ m := by
  have anti : Std.Antisymm (fun (a b : ℤ) => a ≤ b) := ⟨by
    intro a b h1 h2
    exact le_antisymm h1 h2⟩
  exact List.max?_eq_some_iff (fun a => le_refl a) (fun a b => max_choice a b)
    (fun a b c => max_le_iff)

theorem idxmax_of_max?_none (cols : List (String × Option ℤ))
    (h : (cols.filterMap (fun c => c.2)).max? = none) : idxmax cols = none := by
  unfold idxmax
  rw [h]
  rfl

theorem idxmax_of_max?_some (cols : List (String × Option ℤ)) (m : ℤ)
    (h : (cols.filterMap (fun c => c.2)).max? = some m) :
    idxmax cols = (cols.find? (fun c => c.2 = some m)).map (fun c => c.1) := by
  unfold idxmax
  rw [h]
  rfl

/-- C4 (amended): for the cleaners that derive `race_state` from the splits
(hamburg, stockholm, chicago), `race_state = "Finished"` iff the computed
`last_split` is the `k_finish_time` column, which holds iff the finish
checkpoint carries a recorded time strictly greater than every other
checkpoint time (first-occurrence-of-maximum semantics: a tie with an earlier
column yields `"Started"`); every other row gets `"Started"`.
`houston_cleaner` instead takes `race_state` from the source status column
(only renaming DNF/DQ values to `"Started"`), so it is not functionally
determined by `last_split`. -/
theorem C4_race_state_amended :
    (∀ (others : List (String × Option ℤ)) (fv : Option ℤ),
      "k_finish_time" ∉ others.map (fun c => c.1) →
      (derived_race_state (others ++ [("k_finish_time", fv)]) = "Finished" ↔
        ∃ v : ℤ, fv = some v ∧ ∀ c ∈ others, ∀ x : ℤ, c.2 = some x → x < v)) ∧
    (∀ timeCols : List (String × Option ℤ),
      derived_race_state timeCols = "Finished" ↔
        idxmax timeCols = some "k_finish_time") ∧
    (∀ timeCols : List (String × Option ℤ),
      derived_race_state timeCols = "Finished" ∨
        derived_race_state timeCols = "Started") := by
  have hiff : ∀ timeCols : List (String × Option ℤ),
      derived_race_state timeCols = "Finished" ↔
        idxmax timeCols = some "k_finish_time" := by
    intro timeCols
    unfold derived_race_state
    split_ifs with h
    · simp [h]
    · constructor
      · intro hcon
        exact absurd hcon (by decide)
      · intro hcon
        exact absurd hcon h
  refine ⟨?_, hiff, ?_⟩
  · intro others fv hfresh
    rw [hiff]
    constructor
    · intro h
      rcases hmax : ((others ++ [("k_finish_time", fv)]).filterMap
          (fun c => c.2)).max? with _ | m
      · rw [idxmax_of_max?_none _ hmax] at h
        cases h
      · rw [idxmax_of_max?_some _ m hmax] at h
        rcases hfind : ((others ++ [("k_finish_time", fv)]).find?
            (fun c => c.2 = some m)) with _ | c
        · rw [hfind] at h
          cases h
        · rw [hfind] at h
          have hc1 : c.1 = "k_finish_time" := by simpa using h
          have hothers : others.find?
              (fun c => decide (c.2 = some m)) = none := by
            rcases hfo : others.find? (fun c => decide (c.2 = some m)) with _ | c0
            · exact hfo
            · exfalso
              have hmem := List.mem_of_find?_eq_some hfo
              have happ := @List.find?_append (String × Option ℤ)
                (fun c => decide (c.2 = some m)) others [("k_finish_time", fv)]
              rw [hfo] at happ
              rw [hfind] at happ
              have hc0 : c0 = c := by simpa using happ.symm
              subst hc0
              exact hfresh (List.mem_map.mpr ⟨c0, hmem, hc1⟩)
          have hsing : ([(("k_finish_time" : String), fv)].find?
              (fun c => decide (c.2 = some m))) = some c := by
            have happ := @List.find?_append (String × Option ℤ)
              (fun c => decide (c.2 = some m)) others [("k_finish_time", fv)]
            rw [hothers] at happ
            rw [hfind] at happ
            simpa using happ.symm
          have hcval : fv = some m := by
            by_cases hfv : fv = some m
            · exact hfv
            · simp [List.find?, hfv] at hsing
          refine ⟨m, hcval, ?_⟩
          intro p hp x hx
          have hmem : x ∈ ((others ++ [("k_finish_time", fv)]).filterMap
              (fun c => c.2)) := by
            rw [List.filterMap_append]
            exact List.mem_append_left _ (List.mem_filterMap.mpr ⟨p, hp, hx⟩)
          have hle := ((int_max?_eq_some_iff _ m).mp hmax).2 x hmem
          rcases lt_or_eq_of_le hle with hlt | heq
          · exact hlt
          · exfalso
            have hnp : ¬ (p.2 = some m) := by
              have := List.find?_eq_none.mp hothers p hp
              simpa using this
            rw [heq] at hx
            exact hnp hx
    · rintro ⟨v, rfl, hlt⟩
      have hvals : ((others ++ [("k_finish_time", some v)]).filterMap
          (fun c => c.2)) = others.filterMap (fun c => c.2) ++ [v] := by
        rw [List.filterMap_append]
        rfl
      have hmax : ((others ++ [("k_finish_time", some v)]).filterMap
          (fun c => c.2)).max? = some v := by
        rw [hvals, int_max?_eq_some_iff]
        constructor
        · exact List.mem_append_right _ (by simp)
        · intro b hb
          rcases List.mem_append.mp hb with hb | hb
          · obtain ⟨p, hp, hpb⟩ := List.mem_filterMap.mp hb
            exact le_of_lt (hlt p hp b hpb)
          · simp at hb
            omega
      have hfo : others.find? (fun c => decide (c.2 = some v)) = none := by
        rw [List.find?_eq_none]
        intro p hp
        simp only [decide_eq_true_eq]
        intro hpv
        exact absurd (hlt p hp v hpv) (lt_irrefl v)
      rw [idxmax_of_max?_some _ v hmax, List.find?_append, hfo]
      simp [List.find?]
  · intro timeCols
    unfold derived_race_state
    split_ifs <;> simp

/-- Witness for `C4_race_state_amended`: a row whose finish time strictly
dominates the other checkpoint gets `race_state = "Finished"`. -/
theorem C4_race_state_amended_witness :
    derived_race_state [("k_40_time", some 3600), ("k_finish_time", some 7200)] =
      "Finished" :=
  (C4_race_state_amended.1 [("k_40_time", some 3600)] (some 7200)
      (by decide)).mpr
    ⟨7200, rfl, by
      intro c hc x hx
      rw [List.mem_singleton] at hc
      subst hc
      simp only [Option.some.injEq] at hx
      omega⟩

/-- C4 counterexample, falsifying the claim for the code as written:
(a) a hamburg-style derived row whose finish time ties the 40 km time — the
finish checkpoint holds a valid recorded time, yet `idxmax` picks the earlier
column and `race_state` is `"Started"`; (b) `houston_cleaner` keeps the
source value `"Finished"` even for a row with no finish time, whose
`last_split` is an earlier checkpoint, so `race_state = "Finished"` does not
imply `last_split = k_finish_time` there. -/
theorem C4_counterexample :
    derived_race_state [("k_40_time", some 7200), ("k_finish_time", some 7200)] =
      "Started" ∧
    houston_race_state "Finished" = some "Finished" ∧
    idxmax [("k_5_time", some 1500), ("k_finish_time", (none : Option ℤ))] =
      some "k_5_time" ∧
    some "k_5_time" ≠ some "k_finish_time" := by
  refine ⟨by decide, by decide, by decide, by decide⟩

/-! ### `drop_rows_with_splits_speed_above`

`indices = df[(df.loc[:, "k_5_speed"::3] > limit).any(axis=1)].index` selects
the rows with any strided speed column strictly above the limit (a `NaN`
compares `False`), and those rows are dropped.  Under the canonical cleaned
column order the stride `"k_5_speed"::3` is exactly the ten `k_*_speed`
columns, so a row is modelled by that list of optional speeds together with
its `race_state`. -/

structure SpeedRow where
  speeds : List (Option ℚ)
  race_state : String

/-- `(row > limit).any()` over the strided speed columns. -/
def row_speed_above (limit : ℚ) (r : SpeedRow) : Bool :=
  r.speeds.any (fun s =>
    match s with
    | some v => decide (limit < v)
    | none => false)

def drop_rows_with_splits_speed_above (limit : ℚ) (rows : List SpeedRow) :
    List SpeedRow :=
  rows.filter (fun r => !(row_speed_above limit r))

/-- C9: after the final row-dropping step of `london_cleaner` /
`hamburg_cleaner` (`drop_rows_with_splits_speed_above(df, 22.0)`; the
subsequent `convert_dtypes()` only re-types columns), every surviving row has
all split speeds at most 22 km/h or null, every row with a split speed
strictly above 22 is dropped regardless of its `race_state`, and every other
row survives. -/
theorem C9_speed_cap (rows : List SpeedRow) :
    (∀ r ∈ drop_rows_with_splits_speed_above 22 rows,
      ∀ s ∈ r.speeds, ∀ v : ℚ, s = some v → v ≤ 22) ∧
    (∀ r ∈ rows, row_speed_above 22 r = true →
      r ∉ drop_rows_with_splits_speed_above 22 rows) ∧
    (∀ r ∈ rows, row_speed_above 22 r = false →
      r ∈ drop_rows_with_splits_speed_above 22 rows) := by
  refine ⟨?_, ?_, ?_⟩
  · intro r hr s hs v hv
    have hmem := List.mem_filter.mp hr
    have habove : row_speed_above 22 r = false := by
      rcases Bool.eq_false_or_eq_true (row_speed_above 22 r) with h | h
      · rw [h] at hmem
        simpa using hmem.2
      · exact h
    unfold row_speed_above at habove
    rw [List.any_eq_false] at habove
    have := habove s hs
    rw [hv] at this
    simp only [decide_eq_true_eq] at this
    exact le_of_not_lt (fun hlt => this (by simpa using hlt))
  · intro r hr habove hmem
    have h := (List.mem_filter.mp hmem).2
    rw [habove] at h
    simp at h
  · intro r hr hnot
    exact List.mem_filter.mpr ⟨hr, by rw [hnot]; rfl⟩

/-- Witness for `C9_speed_cap` on a concrete two-row table: the 25.5 km/h row
is dropped (even though it is `"Finished"`), the capped row survives and its
concrete speed obeys the bound. -/
theorem C9_speed_cap_witness :
    (⟨[some 25.5, none], "Finished"⟩ : SpeedRow) ∉
      drop_rows_with_splits_speed_above 22
        [⟨[some 20, none], "Started"⟩, ⟨[some 25.5, none], "Finished"⟩] ∧
    (⟨[some 20, none], "Started"⟩ : SpeedRow) ∈
      drop_rows_with_splits_speed_above 22
        [⟨[some 20, none], "Started"⟩, ⟨[some 25.5, none], "Finished"⟩] :=
  ⟨(C9_speed_cap _).2.1 _ (by simp) (by norm_num [row_speed_above]),
   (C9_speed_cap _).2.2 _ (by simp) (by norm_num [row_speed_above])⟩

/-! ### `fill_time_speed_based_on_pace` (algebraic backfill from pace)

A row is a map from split key to its `(time, pace, speed)` triple of optional
values; `miss` tells whether the row is in `miss_indices[key]` (time, pace and
speed all missing before imputation; the pace has been imputed by the time
this function runs).  The Python function first fills `k_5`
(`time = pace * 5`, `speed = (1/pace) * 3600`), then walks the remaining keys
in order, setting `time = pace * dist + previous key's time` (reading the
current, possibly already-filled state of the frame) and
`speed = (1/pace) * 3600`. -/

structure SplitData where
  time : Option ℚ
  pace : Option ℚ
  speed : Option ℚ

abbrev SplitRow := String → SplitData

def upd_split (r : SplitRow) (k : String) (v : SplitData) : SplitRow :=
  fun q => if q = k then v else r q

theorem upd_split_apply (r : SplitRow) (k : String) (v : SplitData) (q : String) :
    upd_split r k v q = if q = k then v else r q := rfl

def split_keys : List String :=
  ["k_5", "k_10", "k_15", "k_20", "k_half", "k_25", "k_30", "k_35", "k_40",
   "k_finish"]

/-- The per-key segment distance hard-coded in the loop's branches:
`k_half ↦ 1.0975` (21.0975 − 20), `k_25 ↦ 3.9025` (5 − 1.0975),
`k_finish ↦ 2.195` (42.195 − 40), 5 otherwise. -/
def seg_dist (key : String) : ℚ :=
  if key = "k_half" then 1.0975
  else if key = "k_25" then 3.9025
  else if key = "k_finish" then 2.195
  else 5

/-- The `k_5` block: no predecessor, so `time = pace * 5`. -/
def fill_k5 (miss : String → Bool) (r : SplitRow) : SplitRow :=
  if miss "k_5" then
    upd_split r "k_5"
      { time := (r "k_5").pace.map (fun p => p * 5),
        pace := (r "k_5").pace,
        speed := (r "k_5").pace.map (fun p => 1 / p * 3600) }
  else r

/-- One iteration of the loop for the pair `(previous key, key)`: a missing
propagated value (`NaN`) is `none`, so the filled time is defined only when
both the pace and the previous time are. -/
def fill_step (miss : String → Bool) (r : SplitRow) (pk : String × String) :
    SplitRow :=
  if miss pk.2 then
    upd_split r pk.2
      { time := (r pk.2).pace.bind
          (fun p => ((r pk.1).time).map (fun t => p * seg_dist pk.2 + t)),
        pace := (r pk.2).pace,
        speed := (r pk.2).pace.map (fun p => 1 / p * 3600) }
  else r

def fill_time_speed_based_on_pace (miss : String → Bool) (r : SplitRow) :
    SplitRow :=
  (split_keys.zip split_keys.tail).foldl (fill_step miss) (fill_k5 miss r)

theorem fill_step_apply_ne (miss : String → Bool) (r : SplitRow)
    (pk : String × String) (k : String) (h : pk.2 ≠ k) :
    fill_step miss r pk k = r k := by
  simp only [fill_step]
  split_ifs with h1
  · rw [upd_split_apply, if_neg (fun hq => h hq.symm)]
  · rfl

theorem fill_step_pace (miss : String → Bool) (r : SplitRow)
    (pk : String × String) (k : String) :
    ((fill_step miss r pk) k).pace = (r k).pace := by
  simp only [fill_step]
  split_ifs with h1
  · rw [upd_split_apply]
    split_ifs with h2
    · rw [h2]
    · rfl
  · rfl

theorem foldl_fill_apply_ne (miss : String → Bool)
    (pairs : List (String × String)) (r : SplitRow) (k : String)
    (h : ∀ pk ∈ pairs, pk.2 ≠ k) :
    (pairs.foldl (fill_step miss) r) k = r k := by
  induction pairs generalizing r with
  | nil => rfl
  | cons pk rest ih =>
    rw [List.foldl_cons, ih _ (fun q hq => h q (List.mem_cons_of_mem _ hq)),
      fill_step_apply_ne miss r pk k (h pk (List.mem_cons_self _ _))]

theorem foldl_fill_pace (miss : String → Bool)
    (pairs : List (String × String)) (r : SplitRow) (k : String) :
    ((pairs.foldl (fill_step miss) r) k).pace = (r k).pace := by
  induction pairs generalizing r with
  | nil => rfl
  | cons pk rest ih =>
    rw [List.foldl_cons, ih, fill_step_pace]

theorem one_div_mul_3600 (p : ℚ) : 1 / p * 3600 = 3600 / p := by
  rw [one_div, mul_comm, ← div_eq_mul_inv]

/-- Behaviour of the fold at the designated pair `(prev, key)`: the filled
time is the (final) pace times the segment distance plus the (final) previous
time, and the filled speed is `3600 / pace`. -/
theorem foldl_fill_decomp (miss : String → Bool) (r0 : SplitRow)
    (before after : List (String × String)) (prev key : String)
    (h1 : ∀ pk ∈ after, pk.2 ≠ key)
    (h2 : ∀ pk ∈ after, pk.2 ≠ prev)
    (h3 : key ≠ prev)
    (hmiss : miss key = true) :
    (((before ++ (prev, key) :: after).foldl (fill_step miss) r0) key).time =
      ((((before ++ (prev, key) :: after).foldl (fill_step miss) r0) key).pace).bind
        (fun p =>
          ((((before ++ (prev, key) :: after).foldl (fill_step miss) r0) prev).time).map
            (fun t => p * seg_dist key + t)) ∧
    (((before ++ (prev, key) :: after).foldl (fill_step miss) r0) key).speed =
      ((((before ++ (prev, key) :: after).foldl (fill_step miss) r0) key).pace).map
        (fun p => 3600 / p) := by
  have hsplit : (before ++ (prev, key) :: after).foldl (fill_step miss) r0 =
      after.foldl (fill_step miss)
        (fill_step miss (before.foldl (fill_step miss) r0) (prev, key)) := by
    rw [List.foldl_append]
    rfl
  set mid := before.foldl (fill_step miss) r0 with hmid
  have hstep_key : fill_step miss mid (prev, key) key =
      { time := (mid key).pace.bind
          (fun p => ((mid prev).time).map (fun t => p * seg_dist key + t)),
        pace := (mid key).pace,
        speed := (mid key).pace.map (fun p => 1 / p * 3600) } := by
    simp [fill_step, upd_split_apply, hmiss]
  have hres_key : ((before ++ (prev, key) :: after).foldl (fill_step miss) r0) key =
      fill_step miss mid (prev, key) key := by
    rw [hsplit]
    exact foldl_fill_apply_ne miss after _ key h1
  have hres_prev : ((before ++ (prev, key) :: after).foldl (fill_step miss) r0) prev =
      mid prev := by
    rw [hsplit, foldl_fill_apply_ne miss after _ prev h2]
    exact fill_step_apply_ne miss mid (prev, key) prev h3
  constructor
  · rw [hres_key, hstep_key, hres_prev]
  · rw [hres_key, hstep_key]
    simp only [one_div_mul_3600]

/-- C6: for every row missing time and speed at a checkpoint with a known
pace, the backfill sets `time = pace × segment_distance + previous
checkpoint's (possibly just filled) time` and `speed = 3600 / pace`, with the
per-checkpoint distances 1.0975 km at `k_half`, 3.9025 km at `k_25`, 2.195 km
at `k_finish` and 5 km elsewhere, while `k_5`, having no predecessor, gets
`time = pace × 5`. -/
theorem C6_fill_time_speed_spec (miss : String → Bool) (r0 : SplitRow) :
    (miss "k_5" = true →
      ((fill_time_speed_based_on_pace miss r0) "k_5").time =
        (((fill_time_speed_based_on_pace miss r0) "k_5").pace).map
          (fun p => p * 5) ∧
      ((fill_time_speed_based_on_pace miss r0) "k_5").speed =
        (((fill_time_speed_based_on_pace miss r0) "k_5").pace).map
          (fun p => 3600 / p)) ∧
    (∀ prev key, (prev, key) ∈ split_keys.zip split_keys.tail →
      miss key = true →
      ((fill_time_speed_based_on_pace miss r0) key).time =
        (((fill_time_speed_based_on_pace miss r0) key).pace).bind
          (fun p => (((fill_time_speed_based_on_pace miss r0) prev).time).map
            (fun t => p * seg_dist key + t)) ∧
      ((fill_time_speed_based_on_pace miss r0) key).speed =
        (((fill_time_speed_based_on_pace miss r0) key).pace).map
          (fun p => 3600 / p)) ∧
    seg_dist "k_half" = 1.0975 ∧ seg_dist "k_25" = 3.9025 ∧
    seg_dist "k_finish" = 2.195 ∧
    (∀ k ∈ (["k_10", "k_15", "k_20", "k_30", "k_35", "k_40"] : List String),
      seg_dist k = 5) := by
  refine ⟨?_, ?_, rfl, rfl, rfl, by intro k hk; fin_cases hk <;> rfl⟩
  · intro hmiss
    have h5 : (fill_time_speed_based_on_pace miss r0) "k_5" =
        fill_k5 miss r0 "k_5" := by
      unfold fill_time_speed_based_on_pace
      exact foldl_fill_apply_ne miss _ _ "k_5" (by decide)
    have hk5 : fill_k5 miss r0 "k_5" =
        { time := (r0 "k_5").pace.map (fun p => p * 5),
          pace := (r0 "k_5").pace,
          speed := (r0 "k_5").pace.map (fun p => 1 / p * 3600) } := by
      simp [fill_k5, upd_split_apply, hmiss]
    constructor
    · rw [h5, hk5]
    · rw [h5, hk5]
      simp only [one_div_mul_3600]
  · intro prev key hmem hmiss
    unfold fill_time_speed_based_on_pace
    fin_cases hmem
    · exact foldl_fill_decomp miss (fill_k5 miss r0) []
        [("k_10", "k_15"), ("k_15", "k_20"), ("k_20", "k_half"),
         ("k_half", "k_25"), ("k_25", "k_30"), ("k_30", "k_35"),
         ("k_35", "k_40"), ("k_40", "k_finish")]
        "k_5" "k_10" (by decide) (by decide) (by decide) hmiss
    · exact foldl_fill_decomp miss (fill_k5 miss r0) [("k_5", "k_10")]
        [("k_15", "k_20"), ("k_20", "k_half"), ("k_half", "k_25"),
         ("k_25", "k_30"), ("k_30", "k_35"), ("k_35", "k_40"),
         ("k_40", "k_finish")]
        "k_10" "k_15" (by decide) (by decide) (by decide) hmiss
    · exact foldl_fill_decomp miss (fill_k5 miss r0)
        [("k_5", "k_10"), ("k_10", "k_15")]
        [("k_20", "k_half"), ("k_half", "k_25"), ("k_25", "k_30"),
         ("k_30", "k_35"), ("k_35", "k_40"), ("k_40", "k_finish")]
        "k_15" "k_20" (by decide) (by decide) (by decide) hmiss
    · exact foldl_fill_decomp miss (fill_k5 miss r0)
        [("k_5", "k_10"), ("k_10", "k_15"), ("k_15", "k_20")]
        [("k_half", "k_25"), ("k_25", "k_30"), ("k_30", "k_35"),
         ("k_35", "k_40"), ("k_40", "k_finish")]
        "k_20" "k_half" (by decide) (by decide) (by decide) hmiss
    · exact foldl_fill_decomp miss (fill_k5 miss r0)
        [("k_5", "k_10"), ("k_10", "k_15"), ("k_15", "k_20"),
         ("k_20", "k_half")]
        [("k_25", "k_30"), ("k_30", "k_35"), ("k_35", "k_40"),
         ("k_40", "k_finish")]
        "k_half" "k_25" (by decide) (by decide) (by decide) hmiss
    · exact foldl_fill_decomp miss (fill_k5 miss r0)
        [("k_5", "k_10"), ("k_10", "k_15"), ("k_15", "k_20"),
         ("k_20", "k_half"), ("k_half", "k_25")]
        [("k_30", "k_35"), ("k_35", "k_40"), ("k_40", "k_finish")]
        "k_25" "k_30" (by decide) (by decide) (by decide) hmiss
    · exact foldl_fill_decomp miss (fill_k5 miss r0)
        [("k_5", "k_10"), ("k_10", "k_15"), ("k_15", "k_20"),
         ("k_20", "k_half"), ("k_half", "k_25"), ("k_25", "k_30")]
        [("k_35", "k_40"), ("k_40", "k_finish")]
        "k_30" "k_35" (by decide) (by decide) (by decide) hmiss
    · exact foldl_fill_decomp miss (fill_k5 miss r0)
        [("k_5", "k_10"), ("k_10", "k_15"), ("k_15", "k_20"),
         ("k_20", "k_half"), ("k_half", "k_25"), ("k_25", "k_30"),
         ("k_30", "k_35")]
        [("k_40", "k_finish")]
        "k_35" "k_40" (by decide) (by decide) (by decide) hmiss
    · exact foldl_fill_decomp miss (fill_k5 miss r0)
        [("k_5", "k_10"), ("k_10", "k_15"), ("k_15", "k_20"),
         ("k_20", "k_half"), ("k_half", "k_25"), ("k_25", "k_30"),
         ("k_30", "k_35"), ("k_35", "k_40")]
        []
        "k_40" "k_finish" (by decide) (by decide) (by decide) hmiss

def miss_k25 : String → Bool := fun k => k == "k_25"

def sample_split_row : SplitRow := fun k =>
  if k = "k_20" then ⟨some 4800, some 240, some 15⟩
  else if k = "k_25" then ⟨none, some 200, none⟩
  else ⟨some 1000, some 300, some 12⟩

/-- Witness for `C6_fill_time_speed_spec` at the `k_25` checkpoint of a
concrete row whose `k_25` triple is missing except for its (imputed) pace. -/
theorem C6_fill_time_speed_spec_witness :
    ((fill_time_speed_based_on_pace miss_k25 sample_split_row) "k_25").time =
      (((fill_time_speed_based_on_pace miss_k25 sample_split_row) "k_25").pace).bind
        (fun p =>
          (((fill_time_speed_based_on_pace miss_k25 sample_split_row) "k_half").time).map
            (fun t => p * seg_dist "k_25" + t)) ∧
    ((fill_time_speed_based_on_pace miss_k25 sample_split_row) "k_25").speed =
      (((fill_time_speed_based_on_pace miss_k25 sample_split_row) "k_25").pace).map
        (fun p => 3600 / p) :=
  (C6_fill_time_speed_spec miss_k25 sample_split_row).2.1 "k_half" "k_25"
    (by decide) (by decide)

/-! ### Frame behaviour of the per-marathon cleaners

Each cleaner starts with `df = df.copy()` and from then on only mutates the
copy (pandas operations with `inplace=True` or column assignment) or rebinds
`df` to a freshly returned frame (`df = df.drop(...).reset_index(...)`,
`df = df[cols_order]`, `df = df.convert_dtypes()`, ...).  We model python
object semantics with an explicit heap: a cleaner is the sequence of its
statements, each `inplace` (mutate the current reference) or `rebind`
(allocate a new object computed from the current one and move the local
variable to it).  The concrete frame transformations are abstract
(`f 0`, `f 1`, ... — one opaque function per source statement). -/

structure Heap (α : Type) where
  mem : ℕ → α
  next : ℕ

def heap_get {α : Type} (h : Heap α) (r : ℕ) : α := h.mem r

def heap_update {α : Type} (h : Heap α) (r : ℕ) (f : α → α) : Heap α :=
  ⟨fun q => if q = r then f (h.mem r) else h.mem q, h.next⟩

def heap_alloc {α : Type} (h : Heap α) (v : α) : Heap α × ℕ :=
  (⟨fun q => if q = h.next then v else h.mem q, h.next + 1⟩, h.next)

inductive HeapStep (α : Type) where
  | inplace (f : α → α)
  | rebind (f : α → α)

def run_steps {α : Type} : List (HeapStep α) → Heap α → ℕ → Heap α × ℕ
  | [], h, r => (h, r)
  | HeapStep.inplace f :: rest, h, r =>
    run_steps rest (heap_update h r f) r
  | HeapStep.rebind f :: rest, h, r =>
    let a := heap_alloc h (f (heap_get h r))
    run_steps rest a.1 a.2

theorem run_steps_frame {α : Type} (steps : List (HeapStep α)) :
    ∀ (h : Heap α) (c r : ℕ), r < h.next → r ≠ c →
      heap_get (run_steps steps h c).1 r = heap_get h r ∧
      r < (run_steps steps h c).1.next ∧
      (run_steps steps h c).2 ≠ r := by
  induction steps with
  | nil =>
    intro h c r hr hne
    exact ⟨rfl, hr, fun hc => hne hc.symm⟩
  | cons st rest ih =>
    intro h c r hr hne
    cases st with
    | inplace f =>
      have hg : heap_get (heap_update h c f) r = heap_get h r := by
        unfold heap_get heap_update
        simp only []
        rw [if_neg hne]
      have hn : r < (heap_update h c f).next := hr
      obtain ⟨h1, h2, h3⟩ := ih (heap_update h c f) c r hn hne
      exact ⟨h1.trans hg, h2, h3⟩
    | rebind f =>
      have hne2 : r ≠ h.next := by omega
      have hg : heap_get (heap_alloc h (f (heap_get h c))).1 r = heap_get h r := by
        unfold heap_get heap_alloc
        simp only []
        rw [if_neg hne2]
      have hn : r < (heap_alloc h (f (heap_get h c))).1.next := by
        show r < h.next + 1
        omega
      obtain ⟨h1, h2, h3⟩ :=
        ih (heap_alloc h (f (heap_get h c))).1 (heap_alloc h (f (heap_get h c))).2
          r hn hne2
      exact ⟨h1.trans hg, h2, h3⟩

/-- Any statement sequence that begins with `df = df.copy()` leaves the
caller's object untouched and returns a reference distinct from it. -/
theorem run_steps_copy_frame {α : Type} (f : α → α) (rest : List (HeapStep α))
    (h : Heap α) (r : ℕ) (hr : r < h.next) :
    heap_get (run_steps (HeapStep.rebind f :: rest) h r).1 r = heap_get h r ∧
    (run_steps (HeapStep.rebind f :: rest) h r).2 ≠ r := by
  have hne2 : r ≠ h.next := by omega
  have hg : heap_get (heap_alloc h (f (heap_get h r))).1 r = heap_get h r := by
    unfold heap_get heap_alloc
    simp only []
    rw [if_neg hne2]
  have hn : r < (heap_alloc h (f (heap_get h r))).1.next := by
    show r < h.next + 1
    omega
  obtain ⟨h1, h2, h3⟩ :=
    run_steps_frame rest (heap_alloc h (f (heap_get h r))).1
      (heap_alloc h (f (heap_get h r))).2 r hn hne2
  exact ⟨h1.trans hg, h3⟩

/-- `london_cleaner`: copy; drop columns (inplace); `replace_value_in_cols`
(inplace `.loc` assignment); drop `race_state == "Not Started"` rows
(rebind); drop all-null-split rows (rebind); `drop_rows_with_time_only_splits`
(rebind); `drop_null_by_col` on `age_cat` then `gender` (inplace `dropna`);
`convert_to_sec` (inplace); `convert_split_dtype` (inplace); age-category
replace (inplace); reorder `df = df[cols_order]` (rebind);
`drop_rows_with_splits_speed_above` (rebind); `df = df.convert_dtypes()`
(rebind). -/
def london_cleaner_steps {α : Type} (f : ℕ → α → α) : List (HeapStep α) :=
  [HeapStep.rebind (f 0), HeapStep.inplace (f 1), HeapStep.inplace (f 2),
   HeapStep.rebind (f 3), HeapStep.rebind (f 4), HeapStep.rebind (f 5),
   HeapStep.inplace (f 6), HeapStep.inplace (f 7), HeapStep.inplace (f 8),
   HeapStep.inplace (f 9), HeapStep.inplace (f 10), HeapStep.rebind (f 11),
   HeapStep.rebind (f 12), HeapStep.rebind (f 13)]

def london_cleaner_heap {α : Type} (f : ℕ → α → α) (h : Heap α) (r : ℕ) :
    Heap α × ℕ :=
  run_steps (london_cleaner_steps f) h r

/-- `hamburg_cleaner`: copy; drop columns (inplace); replace (inplace);
all-null-split drop (`inplace=True`); `drop_null_by_col` ×2 (inplace);
`convert_to_sec`, `convert_split_dtype` (inplace); `last_split` and
`race_state` column assignments (inplace); time-only drop (rebind); `age_cat`
and `last_split` standardization assignments (inplace); reorder (rebind);
speed drop (rebind); `convert_dtypes` (rebind). -/
def hamburg_cleaner_steps {α : Type} (f : ℕ → α → α) : List (HeapStep α) :=
  [HeapStep.rebind (f 0), HeapStep.inplace (f 1), HeapStep.inplace (f 2),
   HeapStep.inplace (f 3), HeapStep.inplace (f 4), HeapStep.inplace (f 5),
   HeapStep.inplace (f 6), HeapStep.inplace (f 7), HeapStep.inplace (f 8),
   HeapStep.inplace (f 9), HeapStep.rebind (f 10), HeapStep.inplace (f 11),
   HeapStep.inplace (f 12), HeapStep.rebind (f 13), HeapStep.rebind (f 14),
   HeapStep.rebind (f 15)]

def hamburg_cleaner_heap {α : Type} (f : ℕ → α → α) (h : Heap α) (r : ℕ) :
    Heap α × ℕ :=
  run_steps (hamburg_cleaner_steps f) h r

/-- `stockholm_cleaner`: copy; drop columns (inplace); replace (inplace);
all-null-split drop (`inplace=True`); `drop_null_by_col` ×2 (inplace);
conversions (inplace); `last_split`/`race_state` assignments (inplace);
time-only drop (rebind); `yob` age computation, minor-drop (`inplace=True`),
age-category mapping, rename (inplace); `last_split` standardization
(inplace); reorder (rebind); `convert_dtypes` (rebind). -/
def stockholm_cleaner_steps {α : Type} (f : ℕ → α → α) : List (HeapStep α) :=
  [HeapStep.rebind (f 0), HeapStep.inplace (f 1), HeapStep.inplace (f 2),
   HeapStep.inplace (f 3), HeapStep.inplace (f 4), HeapStep.inplace (f 5),
   HeapStep.inplace (f 6), HeapStep.inplace (f 7), HeapStep.inplace (f 8),
   HeapStep.inplace (f 9), HeapStep.rebind (f 10), HeapStep.inplace (f 11),
   HeapStep.inplace (f 12), HeapStep.inplace (f 13), HeapStep.inplace (f 14),
   HeapStep.inplace (f 15), HeapStep.rebind (f 16), HeapStep.rebind (f 17)]

def stockholm_cleaner_heap {α : Type} (f : ℕ → α → α) (h : Heap α) (r : ℕ) :
    Heap α × ℕ :=
  run_steps (stockholm_cleaner_steps f) h r

/-- `boston_cleaner`: copy; drop columns (inplace); replace (inplace);
`"not started"` drop (rebind); all-null-split drop (rebind); time-only drop
(rebind); `drop_null_by_col` ×2 (inplace); capitalize `race_state`
(inplace `.loc` assignment); conversions and mile-to-metric conversion
(inplace); age replace (inplace); reorder (rebind); `convert_dtypes`
(rebind). -/
def boston_cleaner_steps {α : Type} (f : ℕ → α → α) : List (HeapStep α) :=
  [HeapStep.rebind (f 0), HeapStep.inplace (f 1), HeapStep.inplace (f 2),
   HeapStep.rebind (f 3), HeapStep.rebind (f 4), HeapStep.rebind (f 5),
   HeapStep.inplace (f 6), HeapStep.inplace (f 7), HeapStep.inplace (f 8),
   HeapStep.inplace (f 9), HeapStep.inplace (f 10), HeapStep.inplace (f 11),
   HeapStep.inplace (f 12), HeapStep.rebind (f 13), HeapStep.rebind (f 14)]

def boston_cleaner_heap {α : Type} (f : ℕ → α → α) (h : Heap α) (r : ℕ) :
    Heap α × ℕ :=
  run_steps (boston_cleaner_steps f) h r

/-- `chicago_cleaner`: copy; drop columns (inplace); replace (inplace);
all-null-split drop (`inplace=True`); `drop_null_by_col` ×2 (inplace);
conversions (inplace); `last_split`/`race_state` assignments (inplace);
time-only drop (rebind); `last_split` standardization (inplace); invalid
age-category drop (rebind); age replaces ×2 (inplace); `convert_dtypes`
(rebind); reorder (rebind). -/
def chicago_cleaner_steps {α : Type} (f : ℕ → α → α) : List (HeapStep α) :=
  [HeapStep.rebind (f 0), HeapStep.inplace (f 1), HeapStep.inplace (f 2),
   HeapStep.inplace (f 3), HeapStep.inplace (f 4), HeapStep.inplace (f 5),
   HeapStep.inplace (f 6), HeapStep.inplace (f 7), HeapStep.inplace (f 8),
   HeapStep.inplace (f 9), HeapStep.rebind (f 10), HeapStep.inplace (f 11),
   HeapStep.rebind (f 12), HeapStep.inplace (f 13), HeapStep.inplace (f 14),
   HeapStep.rebind (f 15), HeapStep.rebind (f 16)]

def chicago_cleaner_heap {α : Type} (f : ℕ → α → α) (h : Heap α) (r : ℕ) :
    Heap α × ℕ :=
  run_steps (chicago_cleaner_steps f) h r

/-- `houston_cleaner`: copy; drop columns (inplace); replace (inplace);
all-null-split drop (rebind); `drop_null_by_col` ×2 (inplace); conversions
and mile-to-metric conversion (inplace); invalid age-category drop (rebind);
age replaces ×2 (inplace); invalid race-state drop (rebind); race-state
replace (inplace); time-only drop (rebind); `last_split` assignment and
standardization (inplace); reorder (rebind); `convert_dtypes` (rebind). -/
def houston_cleaner_steps {α : Type} (f : ℕ → α → α) : List (HeapStep α) :=
  [HeapStep.rebind (f 0), HeapStep.inplace (f 1), HeapStep.inplace (f 2),
   HeapStep.rebind (f 3), HeapStep.inplace (f 4), HeapStep.inplace (f 5),
   HeapStep.inplace (f 6), HeapStep.inplace (f 7), HeapStep.inplace (f 8),
   HeapStep.rebind (f 9), HeapStep.inplace (f 10), HeapStep.inplace (f 11),
   HeapStep.rebind (f 12), HeapStep.inplace (f 13), HeapStep.rebind (f 14),
   HeapStep.inplace (f 15), HeapStep.inplace (f 16), HeapStep.rebind (f 17),
   HeapStep.rebind (f 18)]

def houston_cleaner_heap {α : Type} (f : ℕ → α → α) (h : Heap α) (r : ℕ) :
    Heap α × ℕ :=
  run_steps (houston_cleaner_steps f) h r

/-- C10: every per-marathon cleaner operates on a copy — whatever the
individual frame transformations do, the caller's object is unchanged when
the cleaner returns, and the returned frame is a newly allocated object
(its reference differs from the argument's). -/
theorem C10_cleaners_copy_semantics {α : Type} (f : ℕ → α → α)
    (h : Heap α) (r : ℕ) (hr : r < h.next) :
    (heap_get (london_cleaner_heap f h r).1 r = heap_get h r ∧
      (london_cleaner_heap f h r).2 ≠ r) ∧
    (heap_get (hamburg_cleaner_heap f h r).1 r = heap_get h r ∧
      (hamburg_cleaner_heap f h r).2 ≠ r) ∧
    (heap_get (stockholm_cleaner_heap f h r).1 r = heap_get h r ∧
      (stockholm_cleaner_heap f h r).2 ≠ r) ∧
    (heap_get (boston_cleaner_heap f h r).1 r = heap_get h r ∧
      (boston_cleaner_heap f h r).2 ≠ r) ∧
    (heap_get (chicago_cleaner_heap f h r).1 r = heap_get h r ∧
      (chicago_cleaner_heap f h r).2 ≠ r) ∧
    (heap_get (houston_cleaner_heap f h r).1 r = heap_get h r ∧
      (houston_cleaner_heap f h r).2 ≠ r) :=
  ⟨run_steps_copy_frame (f 0) _ h r hr, run_steps_copy_frame (f 0) _ h r hr,
   run_steps_copy_frame (f 0) _ h r hr, run_steps_copy_frame (f 0) _ h r hr,
   run_steps_copy_frame (f 0) _ h r hr, run_steps_copy_frame (f 0) _ h r hr⟩

/-- Witness for `C10_cleaners_copy_semantics` on a one-cell heap over ℕ with
each transformation incrementing the stored value: slot 0 still holds 0
afterwards, and the cleaner's result lives elsewhere. -/
theorem C10_cleaners_copy_semantics_witness :
    heap_get (london_cleaner_heap (fun _ x => x + 1)
      (⟨fun _ => (0 : ℕ), 1⟩ : Heap ℕ) 0).1 0 = 0 ∧
    (london_cleaner_heap (fun _ x => x + 1)
      (⟨fun _ => (0 : ℕ), 1⟩ : Heap ℕ) 0).2 ≠ 0 := by
  obtain ⟨h1, h2⟩ :=
    (C10_cleaners_copy_semantics (fun _ x => x + 1)
      (⟨fun _ => (0 : ℕ), 1⟩ : Heap ℕ) 0 Nat.one_pos).1
  exact ⟨h1.trans rfl, h2⟩

end Marathon
